import Mathlib

/-!
Verification of the `dwillis/wbb` women's-basketball data-pipeline scripts.

Each Python function relevant to the checked properties is shallowly embedded
as an executable Lean definition; theorems about those definitions settle the
corresponding specification claims.  Python dicts are modelled as association
lists, Python exceptions as `Except`, HTTP and file-system effects as explicit
oracle parameters.
-/

namespace Wbb

/-- Generic helper: a successful `List.lookup` exhibits a member of the list. -/
theorem lookup_mem {α β : Type} [BEq α] [LawfulBEq α] :
    ∀ (l : List (α × β)) (k : α) (v : β), l.lookup k = some v → (k, v) ∈ l := by
  intro l
  induction l with
  | nil => intro k v h; simp [List.lookup] at h
  | cons p t ih =>
    obtain ⟨a, b⟩ := p
    intro k v h
    rw [List.lookup] at h
    rcases hkp : (k == a) with _ | _
    · rw [hkp] at h
      exact List.mem_cons_of_mem _ (ih k v h)
    · rw [hkp] at h
      have hk : k = a := eq_of_beq hkp
      cases h
      rw [hk]
      exact List.mem_cons_self _ _

/-- Generic helper: when the key is absent from the list, `List.lookup` is `none`. -/
theorem lookup_eq_none {α β : Type} [BEq α] [LawfulBEq α] :
    ∀ (l : List (α × β)) (k : α), k ∉ l.map Prod.fst → l.lookup k = none := by
  intro l
  induction l with
  | nil => intro k _; rfl
  | cons p t ih =>
    intro k hk
    rw [List.lookup]
    rcases hkp : (k == p.1) with _ | _
    · exact ih k (fun hmem => hk (by simp [hmem]))
    · exact absurd (by simp [eq_of_beq hkp]) hk

/-- The set of characters Python's `str.strip()` removes (ASCII whitespace). -/
def pyWhitespace (c : Char) : Bool :=
  c = ' ' || c = '\t' || c = '\n' || c = '\r' || c = '\x0b' || c = '\x0c'

/-- Python `str.strip()`: drop leading and trailing whitespace. -/
def pyStrip (s : String) : String :=
  ⟨((s.data.dropWhile pyWhitespace).reverse.dropWhile pyWhitespace).reverse⟩

end Wbb

namespace Rosters

/-- The `year_map` dict of `FieldExtractors.normalize_academic_year`
(`ncaa/rosters/rosters.py`). -/
def yearMap : List (String × String) :=
  [("Fr", "Freshman"), ("Fr.", "Freshman"),
   ("So", "Sophomore"), ("So.", "Sophomore"),
   ("Jr", "Junior"), ("Jr.", "Junior"),
   ("Sr", "Senior"), ("Sr.", "Senior"),
   ("Gr", "Graduate"), ("Gr.", "Graduate Student"),
   ("R-Fr", "Redshirt Freshman"), ("R-Fr.", "Redshirt Freshman"),
   ("R-So", "Redshirt Sophomore"), ("R-So.", "Redshirt Sophomore"),
   ("R-Jr", "Redshirt Junior"), ("R-Jr.", "Redshirt Junior"),
   ("R-Sr", "Redshirt Senior"), ("R-Sr.", "Redshirt Senior")]

/-- `FieldExtractors.normalize_academic_year`: empty input gives `''`; otherwise
the stripped input is looked up in `year_map`, defaulting to the original text. -/
def normalize_academic_year (year_text : String) : String :=
  if year_text = "" then ""
  else
    match yearMap.lookup (Wbb.pyStrip year_text) with
    | some v => v
    | none => year_text

/-- Every value of `year_map` is a fixed point of `normalize_academic_year`. -/
theorem normalize_fixes_values :
    ∀ p ∈ yearMap, normalize_academic_year p.2 = p.2 := by decide

/-- The `Player` dataclass of `ncaa/rosters/rosters.py`, fields in source order. -/
structure Player where
  team_id : Int
  team : String
  player_id : Option String
  name : String
  year : String
  hometown : String
  high_school : String
  previous_school : String
  height : String
  position : String
  jersey : String
  url : String
  season : String

/-- A Python dict value as it appears in a player dict. -/
inductive PyVal : Type
  | int (n : Int)
  | str (s : String)
  | none
deriving DecidableEq

/-- An `Optional[str]` dataclass field as a dict value. -/
def optStr : Option String → PyVal
  | Option.none => .none
  | some s => .str s

/-- `dataclasses.asdict` on a `Player`: one entry per field, in field order. -/
def asdict (p : Player) : List (String × PyVal) :=
  [("team_id", .int p.team_id), ("team", .str p.team),
   ("player_id", optStr p.player_id), ("name", .str p.name),
   ("year", .str p.year), ("hometown", .str p.hometown),
   ("high_school", .str p.high_school),
   ("previous_school", .str p.previous_school),
   ("height", .str p.height), ("position", .str p.position),
   ("jersey", .str p.jersey), ("url", .str p.url),
   ("season", .str p.season)]

/-- Python `dict.pop(k, default)`: the removed value and the remaining dict. -/
def dictPop (d : List (String × PyVal)) (k : String) (dflt : PyVal) :
    PyVal × List (String × PyVal) :=
  ((d.lookup k).getD dflt, d.filter (fun kv => !(kv.1 == k)))

/-- `Player.to_dict`: `asdict`, pop `'year'`, store its value under
`'academic_year'` (a fresh key, hence appended at the end). -/
def Player.to_dict (p : Player) : List (String × PyVal) :=
  let popped := dictPop (asdict p) "year" (.str "")
  popped.2 ++ [("academic_year", popped.1)]

end Rosters

/-- C9: `normalize_academic_year` is idempotent — no output of the abbreviation
map is itself a map key, unmapped inputs are returned unchanged, and the empty
string maps to the empty string. -/
theorem C9_normalize_academic_year_idempotent :
    (∀ s : String,
      Rosters.normalize_academic_year (Rosters.normalize_academic_year s) =
        Rosters.normalize_academic_year s)
    ∧ Rosters.normalize_academic_year "" = ""
    ∧ (∀ p ∈ Rosters.yearMap, Rosters.yearMap.lookup (Wbb.pyStrip p.2) = none)
    ∧ (∀ s : String, s ≠ "" →
        Rosters.yearMap.lookup (Wbb.pyStrip s) = none →
        Rosters.normalize_academic_year s = s) := by
  have hunmapped : ∀ s : String, s ≠ "" →
      Rosters.yearMap.lookup (Wbb.pyStrip s) = none →
      Rosters.normalize_academic_year s = s := by
    intro s hs h
    unfold Rosters.normalize_academic_year
    rw [if_neg hs, h]
  refine ⟨?_, rfl, by decide, hunmapped⟩
  intro s
  by_cases hs : s = ""
  · rw [hs]; rfl
  · rcases h : Rosters.yearMap.lookup (Wbb.pyStrip s) with _ | v
    · have h1 : Rosters.normalize_academic_year s = s := hunmapped s hs h
      rw [h1]
      exact h1
    · have h1 : Rosters.normalize_academic_year s = v := by
        unfold Rosters.normalize_academic_year
        rw [if_neg hs, h]
      have hmem : (Wbb.pyStrip s, v) ∈ Rosters.yearMap := Wbb.lookup_mem _ _ _ h
      rw [h1]
      exact Rosters.normalize_fixes_values _ hmem

/-- Witness for C9 at the concrete inputs `"Jr."` and `"Hello"`. -/
theorem C9_witness :
    Rosters.normalize_academic_year (Rosters.normalize_academic_year "Jr.") =
      Rosters.normalize_academic_year "Jr."
    ∧ Rosters.normalize_academic_year "Hello" = "Hello" :=
  ⟨C9_normalize_academic_year_idempotent.1 "Jr.",
   C9_normalize_academic_year_idempotent.2.2.2 "Hello" (by decide) (by decide)⟩

/-- C10: `Player.to_dict` exposes the `year` field under the key
`'academic_year'`, has no `'year'` key, and maps every other dataclass field
to its value unchanged. -/
theorem C10_player_to_dict_fields (p : Rosters.Player) :
    (p.to_dict).lookup "academic_year" = some (.str p.year)
    ∧ (p.to_dict).lookup "year" = none
    ∧ (p.to_dict).lookup "team_id" = some (.int p.team_id)
    ∧ (p.to_dict).lookup "team" = some (.str p.team)
    ∧ (p.to_dict).lookup "player_id" = some (Rosters.optStr p.player_id)
    ∧ (p.to_dict).lookup "name" = some (.str p.name)
    ∧ (p.to_dict).lookup "hometown" = some (.str p.hometown)
    ∧ (p.to_dict).lookup "high_school" = some (.str p.high_school)
    ∧ (p.to_dict).lookup "previous_school" = some (.str p.previous_school)
    ∧ (p.to_dict).lookup "height" = some (.str p.height)
    ∧ (p.to_dict).lookup "position" = some (.str p.position)
    ∧ (p.to_dict).lookup "jersey" = some (.str p.jersey)
    ∧ (p.to_dict).lookup "url" = some (.str p.url)
    ∧ (p.to_dict).lookup "season" = some (.str p.season) := by
  refine ⟨?_, ?_, ?_, ?_, ?_, ?_, ?_, ?_, ?_, ?_, ?_, ?_, ?_, ?_⟩ <;> rfl

namespace Pairs

/-- `create_partnership_signature` (`ncaa/officials/pairs.py`): the two stripped
names sorted (Python `sorted` on a two-element list swaps exactly when the
second compares less than the first) and joined with `' & '`. -/
def create_partnership_signature (official1 official2 : String) : String :=
  let x := Wbb.pyStrip official1
  let y := Wbb.pyStrip official2
  if y < x then y ++ " & " ++ x else x ++ " & " ++ y

/-- `itertools.combinations(l, 2)`: the pairs `(l[i], l[j])` for `i < j`,
in lexicographic index order. -/
def combinations2 {α : Type} : List α → List (α × α)
  | [] => []
  | x :: rest => rest.map (fun y => (x, y)) ++ combinations2 rest

/-- `get_all_partnerships_from_game`: one signature per 2-combination. -/
def get_all_partnerships_from_game (officials : List String) : List String :=
  (combinations2 officials).map fun c => create_partnership_signature c.1 c.2

/-- `combinations2` produces `n choose 2` pairs. -/
theorem combinations2_length {α : Type} :
    ∀ l : List α, (combinations2 l).length = l.length.choose 2 := by
  intro l
  induction l with
  | nil => rfl
  | cons x rest ih =>
    simp only [combinations2, List.length_append, List.length_map, ih,
      List.length_cons, Nat.choose_succ_succ, Nat.choose_one_right]

end Pairs

namespace GameUtils

/-- An HTTP response as seen by `fetch_game_json` (`ncaa/game_utils.py`):
a status code and the result of attempting `r.json()` on the body —
`some` when the body is valid JSON, `none` when parsing would raise. -/
structure Response (J : Type) where
  status_code : Nat
  jsonBody : Option J

/-- `fetch_game_json`: on status 200 try to parse the body (`None` on a parse
error); on any other status return `None`. -/
def fetch_game_json {J : Type} (r : Response J) : Option J :=
  if r.status_code = 200 then
    match r.jsonBody with
    | some pbp => some pbp
    | none => none
  else none

end GameUtils

namespace TeamConfig

/-- Key set of `TeamConfig.NUXT_JS_TEAMS` (`ncaa/rosters/rosters.py`); every
value in the source dict is a plain base-URL string, so the merged config type
for these teams is always `'javascript'`. -/
def NUXT_JS_TEAMS : List Int :=
  [71, 83, 96, 99, 164, 176, 180, 191, 204, 229, 234, 367, 418, 428, 458, 716,
   718, 700, 355, 497, 441, 416, 509, 521, 522, 454, 404, 671, 574, 664, 575,
   698, 288, 400, 457, 156, 196, 725, 9, 502, 456, 469, 504, 758, 490, 690,
   732, 749, 110, 1104, 719, 772, 328, 635, 86, 694, 387, 545, 721, 51, 419,
   688, 311, 129, 8, 193, 649, 249, 430, 80, 257, 317, 66, 562, 659, 756, 697,
   173, 518, 47, 529, 676, 30135, 414, 434, 440, 703, 796]

/-- `TeamConfig.S_PERSON_CARD_TEAMS`. -/
def S_PERSON_CARD_TEAMS : List Int := [67, 169, 157, 603]

/-- Key set of `TeamConfig.TABLE_BASED_TEAMS`; every entry in the source dict
holds only a `'url_format'` key (never `'type'`), so the merged type is always
`'table'`.  The literal `127` appears twice in the source dict; membership is
unaffected. -/
def TABLE_BASED_TEAMS : List Int :=
  [5, 26, 28, 31, 37, 64, 76, 77, 119, 125, 127, 128, 140, 147, 161, 170, 186,
   216, 218, 238, 255, 306, 308, 312, 324, 334, 388, 433, 463, 473, 513, 523,
   539, 554, 556, 559, 626, 657, 695, 736, 742, 777, 812, 674, 630, 706, 365,
   692, 648, 127, 987, 1000, 1023, 1050, 1130, 1163, 1199, 1348, 1355, 1356,
   1460, 1467, 689, 11036, 12830, 224, 227, 24317, 25719, 26107, 2798, 28594,
   30042, 443, 30225, 325, 1315, 449, 455, 486, 510, 517, 525, 532, 538, 544,
   569, 591, 641, 684, 74, 762, 785, 806, 809, 8981, 939, 953, 621, 8486,
   8687, 8956, 30033, 30189]

/-- Key set of `TeamConfig.PRESTOSPORTS_SEASON_FIRST`; the single entry has no
`'type'` key, so the merged type is `'standard'`. -/
def PRESTOSPORTS_SEASON_FIRST : List Int := [30253]

/-- `TeamConfig.CUSTOM_JS_TEAMS`, keeping per-entry data relevant to the merge
`{'type': 'javascript', **entry}`: the entry's own `'type'` key when present
(only team 746 carries one, and it is again `'javascript'`). -/
def CUSTOM_JS_TEAMS : List (Int × Option String) :=
  [(178, none), (248, none), (327, none), (414, none), (415, none),
   (528, none), (129, none), (746, some "javascript"), (811, none)]

/-- `TeamConfig.VUE_DATA_TEAMS`, keeping the entry's own `'type'` key when
present: all full entries override the merged type to `'standard'`; the two
bare entries (72, 731) have no `'type'` key and keep `'vue_data'`. -/
def VUE_DATA_TEAMS : List (Int × Option String) :=
  [(406, some "standard"), (90, some "standard"), (172, some "standard"),
   (610, some "standard"), (331, some "standard"), (2711, some "standard"),
   (101, some "standard"), (235, some "standard"), (2707, some "standard"),
   (598, some "standard"), (620, some "standard"), (709, some "standard"),
   (158, some "standard"), (1014, some "standard"), (68, some "standard"),
   (768, some "standard"), (72, none), (731, none)]

/-- The `'type'` field of the dict returned by `TeamConfig.get_config`,
following the source's branch order and the Python dict-merge semantics
(`{'type': t, **entry}` lets an entry's own `'type'` key win). -/
def get_config_type (team_id : Int) : String :=
  if team_id ∈ PRESTOSPORTS_SEASON_FIRST then "standard"
  else if team_id ∈ NUXT_JS_TEAMS then "javascript"
  else if team_id ∈ S_PERSON_CARD_TEAMS then "javascript"
  else if team_id ∈ TABLE_BASED_TEAMS then "table"
  else
    match CUSTOM_JS_TEAMS.lookup team_id with
    | some ov => ov.getD "javascript"
    | none =>
      match VUE_DATA_TEAMS.lookup team_id with
      | some ov => ov.getD "vue_data"
      | none =>
        if team_id ∈ ([340] : List Int) then "standard"
        else if team_id ∈ ([77] : List Int) then "table"
        else if team_id ∈ ([352] : List Int) then "javascript"
        else "standard"

/-- The concrete scraper classes of `ScraperFactory`. -/
inductive ScraperClass : Type
  | standardScraper
  | tableScraper
  | javaScriptScraper
  | vueDataScraper
deriving DecidableEq

/-- `ScraperFactory.create_scraper`: dispatch on the type string, defaulting to
`StandardScraper`. -/
def create_scraper (scraper_type : String) : ScraperClass :=
  if scraper_type = "standard" then .standardScraper
  else if scraper_type = "table" then .tableScraper
  else if scraper_type = "javascript" then .javaScriptScraper
  else if scraper_type = "vue_data" then .vueDataScraper
  else .standardScraper

/-- All team ids appearing in any hand-maintained branch of `get_config`. -/
def handMaintainedIds : List Int :=
  PRESTOSPORTS_SEASON_FIRST ++ NUXT_JS_TEAMS ++ S_PERSON_CARD_TEAMS ++
    TABLE_BASED_TEAMS ++ CUSTOM_JS_TEAMS.map Prod.fst ++
    VUE_DATA_TEAMS.map Prod.fst ++ [340, 77, 352]

/-- Every `CUSTOM_JS_TEAMS` entry merges to type `'javascript'`. -/
theorem custom_merge_javascript :
    ∀ p ∈ CUSTOM_JS_TEAMS, p.2.getD "javascript" = "javascript" := by decide

/-- Every `VUE_DATA_TEAMS` entry merges to type `'standard'` or `'vue_data'`. -/
theorem vue_merge_types :
    ∀ p ∈ VUE_DATA_TEAMS,
      p.2.getD "vue_data" = "standard" ∨ p.2.getD "vue_data" = "vue_data" := by
  decide

end TeamConfig

/-- C8: `create_partnership_signature` is commutative, and
`get_all_partnerships_from_game` on a list of `n` distinct names returns
exactly `n*(n-1)/2` signatures, one per unordered pair of positions. -/
theorem C8_partnership_signature_commutative :
    (∀ a b : String,
      Pairs.create_partnership_signature a b =
        Pairs.create_partnership_signature b a)
    ∧ (∀ officials : List String, officials.Nodup →
        (Pairs.get_all_partnerships_from_game officials).length =
          officials.length * (officials.length - 1) / 2) := by
  constructor
  · intro a b
    unfold Pairs.create_partnership_signature
    rcases lt_trichotomy (Wbb.pyStrip a) (Wbb.pyStrip b) with hlt | heq | hgt
    · rw [if_neg (asymm hlt), if_pos hlt]
    · rw [heq]
    · rw [if_pos hgt, if_neg (asymm hgt)]
  · intro officials _
    unfold Pairs.get_all_partnerships_from_game
    rw [List.length_map, Pairs.combinations2_length, Nat.choose_two_right]

/-- Witness for C8 on three concrete distinct names. -/
theorem C8_witness :
    Pairs.create_partnership_signature "Carla Ruiz" "Amy Bonner" =
      Pairs.create_partnership_signature "Amy Bonner" "Carla Ruiz"
    ∧ (Pairs.get_all_partnerships_from_game
        ["Amy Bonner", "Carla Ruiz", "Dee Kantner"]).length = 3 * (3 - 1) / 2 :=
  ⟨C8_partnership_signature_commutative.1 "Carla Ruiz" "Amy Bonner",
   C8_partnership_signature_commutative.2
     ["Amy Bonner", "Carla Ruiz", "Dee Kantner"] (by decide)⟩

/-- C6: `fetch_game_json` returns the parsed body exactly when the status is
200 and the body parses; in every other case it returns `None`. -/
theorem C6_fetch_game_json_option {J : Type} (r : GameUtils.Response J) :
    (∀ j : J, GameUtils.fetch_game_json r = some j ↔
      (r.status_code = 200 ∧ r.jsonBody = some j))
    ∧ ((r.status_code ≠ 200 ∨ r.jsonBody = none) →
        GameUtils.fetch_game_json r = none) := by
  unfold GameUtils.fetch_game_json
  by_cases hs : r.status_code = 200
  · rcases hb : r.jsonBody with _ | j0
    · simp [hs, hb]
    · simp [hs, hb]
  · simp [hs]

/-- Witness for C6: a 404 response and a parsed 200 response. -/
theorem C6_witness :
    GameUtils.fetch_game_json
        ({ status_code := 404, jsonBody := some 7 } : GameUtils.Response Nat) =
      none
    ∧ GameUtils.fetch_game_json
        ({ status_code := 200, jsonBody := some 7 } : GameUtils.Response Nat) =
      some 7 :=
  ⟨(C6_fetch_game_json_option _).2 (Or.inl (by decide)),
   ((C6_fetch_game_json_option _).1 7).mpr ⟨rfl, rfl⟩⟩

/-- C1: `get_config` always yields one of the four scraping strategies,
`create_scraper` maps each strategy string to its scraper class, and any team
id outside the hand-maintained tables falls back to the standard scraper. -/
theorem C1_team_config_dispatch (team_id : Int) :
    (TeamConfig.get_config_type team_id ∈
      ["standard", "table", "javascript", "vue_data"])
    ∧ (TeamConfig.create_scraper "standard" = .standardScraper
      ∧ TeamConfig.create_scraper "table" = .tableScraper
      ∧ TeamConfig.create_scraper "javascript" = .javaScriptScraper
      ∧ TeamConfig.create_scraper "vue_data" = .vueDataScraper)
    ∧ (team_id ∉ TeamConfig.handMaintainedIds →
        TeamConfig.get_config_type team_id = "standard"
        ∧ TeamConfig.create_scraper (TeamConfig.get_config_type team_id) =
            .standardScraper) := by
  refine ⟨?_, ⟨rfl, rfl, rfl, rfl⟩, ?_⟩
  · unfold TeamConfig.get_config_type
    rcases hc : TeamConfig.CUSTOM_JS_TEAMS.lookup team_id with _ | ov <;>
      rcases hv : TeamConfig.VUE_DATA_TEAMS.lookup team_id with _ | ov2 <;>
      simp only [hc, hv] <;> split_ifs <;> try decide
    all_goals first
      | (rw [TeamConfig.custom_merge_javascript _ (Wbb.lookup_mem _ _ _ hc)]
         decide)
      | (rcases TeamConfig.vue_merge_types _ (Wbb.lookup_mem _ _ _ hv) with h | h <;>
          rw [h] <;> decide)
  · intro hnot
    simp only [TeamConfig.handMaintainedIds, List.mem_append, not_or] at hnot
    obtain ⟨⟨⟨⟨⟨⟨h1, h2⟩, h3⟩, h4⟩, h5⟩, h6⟩, h7⟩ := hnot
    have hstd : TeamConfig.get_config_type team_id = "standard" := by
      unfold TeamConfig.get_config_type
      rw [if_neg h1, if_neg h2, if_neg h3, if_neg h4,
        Wbb.lookup_eq_none _ _ h5, Wbb.lookup_eq_none _ _ h6]
      have h340 : team_id ∉ ([340] : List Int) := fun hm => h7 (by simp at hm; simp [hm])
      have h77 : team_id ∉ ([77] : List Int) := fun hm => h7 (by simp at hm; simp [hm])
      have h352 : team_id ∉ ([352] : List Int) := fun hm => h7 (by simp at hm; simp [hm])
      rw [if_neg h340, if_neg h77, if_neg h352]
    exact ⟨hstd, by rw [hstd]; rfl⟩

/-- Witness for C1 at the unconfigured team id 999983. -/
theorem C1_witness :
    TeamConfig.get_config_type 999983 = "standard"
    ∧ TeamConfig.create_scraper (TeamConfig.get_config_type 999983) =
        .standardScraper :=
  (C1_team_config_dispatch 999983).2.2 (by decide)

namespace Rosters

/-- A team record from `teams.json` as used by the scrapers: its NCAA id,
display name and athletics-site URL. -/
structure Team where
  ncaa_id : Int
  team : String
  url : String

/-- Python `try body except: handler`: the handler consumes the exception. -/
def tryCatchE {E A : Type} (body : Except E A) (handler : E → Except E A) :
    Except E A :=
  match body with
  | .ok a => .ok a
  | .error e => handler e

/-- `RosterManager.scrape_team_roster`: choose the scraper from the team's
config, run it (the `scrape` oracle stands for the network-dependent
`scraper.scrape_roster` call, which may raise), and catch any exception by
returning the empty list. -/
def scrape_team_roster
    (scrape : TeamConfig.ScraperClass → Team → String → Except String (List Player))
    (team : Team) (season : String) : List Player :=
  match tryCatchE
      (scrape (TeamConfig.create_scraper (TeamConfig.get_config_type team.ncaa_id))
        team season)
      (fun _ => .ok []) with
  | .ok ps => ps
  | .error _ => []

end Rosters

namespace GameUtils

/-- `slugify` (`ncaa/game_utils.py`): id, a dash, then the lower-cased team
name with spaces turned into dashes and `. , ' ) (` removed.  The chained
single-character `str.replace` calls are realised as one per-character pass;
the apostrophe is written `Char.ofNat 39`. -/
def slugChar (c : Char) : List Char :=
  if c = ' ' then ['-']
  else if c = '.' ∨ c = ',' ∨ c = Char.ofNat 39 ∨ c = ')' ∨ c = '(' then []
  else [c]

/-- Python `str.lower()` (ASCII). -/
def pyLower (s : String) : String := ⟨s.data.map Char.toLower⟩

/-- `slugify(team)`. -/
def slugify (team : Rosters.Team) : String :=
  toString team.ncaa_id ++ "-" ++ ⟨(pyLower team.team).data.flatMap slugChar⟩

/-- The per-team season loop of `fetch_rosters`: each season is attempted via
`fetch_season(season, team['url'], slug)` (the `fs` oracle); `try/except:
continue` records the attempt — flagged with whether the fetch succeeded —
and moves on whether or not the oracle raised. -/
def seasonLoop (fs : String → String → String → Except String Unit)
    (team : Rosters.Team) :
    List String → List ((Int × String) × Bool) → List ((Int × String) × Bool)
  | [], acc => acc
  | season :: rest, acc =>
    match fs season team.url (slugify team) with
    | .ok _ => seasonLoop fs team rest (acc ++ [((team.ncaa_id, season), true)])
    | .error _ =>
      seasonLoop fs team rest (acc ++ [((team.ncaa_id, season), false)])

/-- The outer team loop of `fetch_rosters` (the `else` branch that walks every
team in `teams.json`). -/
def teamLoop (fs : String → String → String → Except String Unit)
    (seasons : List String) :
    List Rosters.Team → List ((Int × String) × Bool) →
      List ((Int × String) × Bool)
  | [], acc => acc
  | team :: rest, acc => teamLoop fs seasons rest (seasonLoop fs team seasons acc)

/-- `fetch_rosters` without an `id` filter: the run's log of attempted
`(team, season)` pairs, each flagged with whether `fetch_season` succeeded. -/
def fetch_rosters (fs : String → String → String → Except String Unit)
    (teams : List Rosters.Team) (seasons : List String) :
    List ((Int × String) × Bool) :=
  teamLoop fs seasons teams []

/-- The season loop logs exactly its seasons, in order, regardless of which
oracle calls fail. -/
theorem seasonLoop_eq (fs : String → String → String → Except String Unit)
    (team : Rosters.Team) :
    ∀ (seasons : List String) (acc : List ((Int × String) × Bool)),
      seasonLoop fs team seasons acc =
        acc ++ seasons.map fun s =>
          ((team.ncaa_id, s), (fs s team.url (slugify team)).isOk) := by
  intro seasons
  induction seasons with
  | nil => intro acc; simp [seasonLoop]
  | cons s rest ih =>
    intro acc
    rw [seasonLoop.eq_def]
    rcases hfs : fs s team.url (slugify team) with e | u <;>
      simp [hfs, ih, Except.isOk, Except.toBool]

/-- The team loop logs exactly the product of teams and seasons, in order. -/
theorem teamLoop_eq (fs : String → String → String → Except String Unit)
    (seasons : List String) :
    ∀ (teams : List Rosters.Team) (acc : List ((Int × String) × Bool)),
      teamLoop fs seasons teams acc =
        acc ++ teams.flatMap fun t =>
          seasons.map fun s => ((t.ncaa_id, s), (fs s t.url (slugify t)).isOk) := by
  intro teams
  induction teams with
  | nil => intro acc; simp [teamLoop]
  | cons t rest ih =>
    intro acc
    rw [teamLoop.eq_def]
    simp [seasonLoop_eq, ih]

end GameUtils

/-- C3: an exception while scraping one team yields the empty list for that
team (and a successful scrape is passed through unchanged), and the
`try/except: continue` of `fetch_rosters` processes every `(team, season)`
pair of the run in order — failures neither abort the run nor disturb the
records of the other pairs. -/
theorem C3_failures_skip_not_abort :
    (∀ scrape (team : Rosters.Team) (season : String) e,
      scrape (TeamConfig.create_scraper
          (TeamConfig.get_config_type team.ncaa_id)) team season =
        .error e →
      Rosters.scrape_team_roster scrape team season = [])
    ∧ (∀ scrape (team : Rosters.Team) (season : String) ps,
        scrape (TeamConfig.create_scraper
            (TeamConfig.get_config_type team.ncaa_id)) team season =
          .ok ps →
        Rosters.scrape_team_roster scrape team season = ps)
    ∧ (∀ fs (teams : List Rosters.Team) (seasons : List String),
        GameUtils.fetch_rosters fs teams seasons =
          teams.flatMap fun t => seasons.map fun s =>
            ((t.ncaa_id, s), (fs s t.url (GameUtils.slugify t)).isOk)) := by
  refine ⟨?_, ?_, ?_⟩
  · intro scrape team season e h
    unfold Rosters.scrape_team_roster
    rw [h]
    rfl
  · intro scrape team season ps h
    unfold Rosters.scrape_team_roster
    rw [h]
    rfl
  · intro fs teams seasons
    unfold GameUtils.fetch_rosters
    rw [GameUtils.teamLoop_eq]
    rfl

/-- Witness for C3: a two-team run in which the first team's scrape raises and
the second succeeds — the failing team contributes zero records, and the
failing `(team, season)` pair does not stop the second pair being processed. -/
theorem C3_witness :
    Rosters.scrape_team_roster
        (fun _ t _ => if t.ncaa_id = 1 then .error "boom" else .ok [])
        ⟨1, "A", "https://a.example"⟩ "2024-25" = []
    ∧ GameUtils.fetch_rosters
        (fun _ url _ => if url = "https://a.example" then .error "boom" else .ok ())
        [⟨1, "A", "https://a.example"⟩, ⟨2, "B", "https://b.example"⟩]
        ["2024-25"] =
      [((1, "2024-25"), false), ((2, "2024-25"), true)] := by
  constructor
  · exact C3_failures_skip_not_abort.1 _ _ _ "boom" (by rfl)
  · rw [C3_failures_skip_not_abort.2.2]
    rfl

namespace Traces

/-- An observable scheduling event of a scraping run: one HTTP request, or one
fixed-duration `time.sleep` (whole seconds). -/
inductive Event : Type
  | request (url : String)
  | sleep (seconds : Nat)
deriving DecidableEq

/-- Is the event an HTTP request? -/
def isRequest : Event → Bool
  | .request _ => true
  | .sleep _ => false

/-- The rate-control property the spec ascribes to every request loop: a sleep
stands between any two consecutive HTTP requests, i.e. no two adjacent trace
events are both requests. -/
def sleepBetweenRequests : List Event → Bool
  | .request _ :: .request _ :: _ => false
  | _ :: rest => sleepBetweenRequests rest
  | [] => true

/-- `BASE_URL` of `fiba/scrape_boxscore.py`. -/
def BASE_URL : String := "https://www.fiba.basketball"

/-- The request URL built by `fetch_game_json` (`ncaa/game_utils.py`). -/
def fetch_game_json_url (domain game_id : String) : String :=
  "https://" ++ domain ++ "/api/livestats?game_id=" ++ game_id ++ "&detail=full"

/-- The HTTP/sleep trace of the `parse_games` loop (`ncaa/game_utils.py`):
each game id triggers exactly one request (`fetch_game_json` → `fetch_url` →
`requests.get`); `write_json` does no network work and the loop contains no
`sleep` call at all. -/
def parse_games_trace (domain : String) (game_ids : List String) : List Event :=
  game_ids.flatMap fun gid => [.request (fetch_game_json_url domain gid)]

/-- The HTTP/sleep trace of a successful `get_players` run
(`fiba/scrape_boxscore.py`): `None` links are skipped; for each remaining link
the events of `get_boxscore(BASE_URL + a)` (the `boxscoreTrace` oracle) are
followed by `time.sleep(1)`.  (On a fetch exception the `except` clause
re-raises and the run aborts; the trace models runs whose fetches succeed.) -/
def get_players_trace (boxscoreTrace : String → List Event)
    (link_ls : List (Option String)) : List Event :=
  link_ls.flatMap fun a =>
    match a with
    | Option.none => []
    | some a => boxscoreTrace (BASE_URL ++ a) ++ [.sleep 1]

end Traces

/-- C7 counterexample: the claim asserts the sleep-between-consecutive-requests
property for every request loop, naming `parse_games` as one of them; but the
`parse_games` loop of `ncaa/game_utils.py` contains no sleep at all, so a run
over two game ids issues two back-to-back requests. -/
theorem C7_counterexample :
    Traces.sleepBetweenRequests
      (Traces.parse_games_trace "example.com" ["101", "102"]) = false := by
  decide

/-- C7 amended: a fixed 1-second sleep follows each boxscore fetch in the FIBA
`get_players` loop, but the never-two-requests-without-a-sleep property does
not hold for every script: `parse_games` emits one request per game id and no
sleep event whatever, so any run over at least two game ids violates it. -/
theorem C7_fixed_sleep_only_some_loops :
    (∀ (boxscoreTrace : String → List Traces.Event)
        (link_ls : List (Option String)),
      Traces.get_players_trace boxscoreTrace link_ls =
        (link_ls.filterMap id).flatMap fun a =>
          boxscoreTrace (Traces.BASE_URL ++ a) ++ [.sleep 1])
    ∧ (∀ (domain : String) (game_ids : List String),
        (∀ e ∈ Traces.parse_games_trace domain game_ids,
          Traces.isRequest e = true)
        ∧ (Traces.parse_games_trace domain game_ids).length = game_ids.length)
    ∧ (∀ (domain : String) (game_ids : List String), 2 ≤ game_ids.length →
        Traces.sleepBetweenRequests
          (Traces.parse_games_trace domain game_ids) = false) := by
  refine ⟨?_, ?_, ?_⟩
  · intro f links
    induction links with
    | nil => rfl
    | cons a rest ih =>
      rcases a with _ | a <;>
        simp [Traces.get_players_trace, List.filterMap_cons] at ih ⊢ <;>
        exact ih
  · intro domain game_ids
    constructor
    · intro e he
      simp [Traces.parse_games_trace] at he
      obtain ⟨gid, _, rfl⟩ := he
      rfl
    · induction game_ids with
      | nil => rfl
      | cons g rest ih => simp [Traces.parse_games_trace] at ih ⊢; omega
  · intro domain game_ids h2
    match game_ids with
    | g1 :: g2 :: rest => rfl

/-- Witness for C7 amended, on a concrete two-link / two-game run. -/
theorem C7_witness :
    Traces.get_players_trace (fun u => [.request u]) [some "/a", Option.none, some "/b"] =
      [.request (Traces.BASE_URL ++ "/a"), .sleep 1,
       .request (Traces.BASE_URL ++ "/b"), .sleep 1]
    ∧ Traces.sleepBetweenRequests
        (Traces.parse_games_trace "stats.example.com" ["8", "9"]) = false := by
  constructor
  · rw [C7_fixed_sleep_only_some_loops.1]
    rfl
  · exact C7_fixed_sleep_only_some_loops.2.2 "stats.example.com" ["8", "9"]
      (by decide)

namespace OfficialDays

/-- A game object of the officials JSON (`ncaa/officials/official_days.py`);
`game.get(k, '')` defaults are realised as total string fields. -/
structure Game where
  date : String
  start_time : String
  location : String
  officials : List String
deriving DecidableEq

/-- A CSV record: `(date, start_time, location, official)`. -/
abbrev OffRec := String × String × String × String

/-- The guard `if not location or location.strip() == '': continue`:
keep the game iff its location is neither empty nor whitespace-only. -/
def keepGame (g : Game) : Bool :=
  !(g.location == "" || Wbb.pyStrip g.location == "")

/-- The guard dropping an individual official that is missing, empty, or
whitespace-only. -/
def keepOfficial (o : String) : Bool :=
  !(o == "" || Wbb.pyStrip o == "")

/-- `set.add`: insert the record unless it is already present. -/
def addUnique (s : List OffRec) (x : OffRec) : List OffRec :=
  if x ∈ s then s else s ++ [x]

/-- Processing one game: when its location passes, add one record per kept
official to the unique-record set. -/
def gameFold (g : Game) (s : List OffRec) : List OffRec :=
  if keepGame g then
    g.officials.foldl
      (fun s2 o =>
        if keepOfficial o then
          addUnique s2 (g.date, g.start_time, g.location, o)
        else s2)
      s
  else s

/-- The `unique_records` set accumulated over all games. -/
def collectRecords (games : List Game) : List OffRec :=
  games.foldl (fun s g => gameFold g s) []

/-- The `sorted(..., key=lambda x: (x[0], x[1]))` comparison: lexicographic on
`(date, start_time)`. -/
def keyLe (a b : OffRec) : Bool :=
  decide (a.1 < b.1) || (decide (a.1 = b.1) && decide (a.2.1 ≤ b.2.1))

/-- `convert_officials_to_csv`: the deduplicated records sorted by
`(date, start_time)`. -/
def convert_officials_to_csv (games : List Game) : List OffRec :=
  (collectRecords games).mergeSort keyLe

theorem addUnique_mem (s : List OffRec) (y x : OffRec) :
    x ∈ addUnique s y ↔ x ∈ s ∨ x = y := by
  unfold addUnique
  split_ifs with h
  · constructor
    · exact Or.inl
    · rintro (hx | rfl)
      · exact hx
      · exact h
  · simp

theorem addUnique_nodup (s : List OffRec) (y : OffRec) (h : s.Nodup) :
    (addUnique s y).Nodup := by
  unfold addUnique
  split_ifs with hy
  · exact h
  · rw [List.nodup_append]
    refine ⟨h, List.nodup_singleton y, fun a ha hay => ?_⟩
    rw [List.mem_singleton] at hay
    exact hy (hay ▸ ha)

theorem innerFold_mem (g : Game) :
    ∀ (os : List String) (s : List OffRec) (x : OffRec),
      (x ∈ os.foldl
        (fun s2 o =>
          if keepOfficial o then
            addUnique s2 (g.date, g.start_time, g.location, o)
          else s2) s)
      ↔ x ∈ s ∨ ∃ o ∈ os, keepOfficial o = true
          ∧ x = (g.date, g.start_time, g.location, o) := by
  intro os
  induction os with
  | nil =>
    intro s x
    constructor
    · exact Or.inl
    · rintro (hx | ⟨o, ho, _⟩)
      · exact hx
      · exact absurd ho (List.not_mem_nil o)
  | cons o rest ih =>
    intro s x
    rw [List.foldl_cons]
    by_cases ho : keepOfficial o = true
    · rw [if_pos ho, ih, addUnique_mem]
      simp only [List.mem_cons, ho]
      constructor
      · rintro ((hx | rfl) | ⟨o2, ho2, hk2, rfl⟩)
        · exact Or.inl hx
        · exact Or.inr ⟨o, Or.inl rfl, ho, rfl⟩
        · exact Or.inr ⟨o2, Or.inr ho2, hk2, rfl⟩
      · rintro (hx | ⟨o2, (rfl | ho2), hk2, rfl⟩)
        · exact Or.inl (Or.inl hx)
        · exact Or.inl (Or.inr rfl)
        · exact Or.inr ⟨o2, ho2, hk2, rfl⟩
    · rw [if_neg ho, ih]
      simp only [List.mem_cons]
      constructor
      · rintro (hx | ⟨o2, ho2, hk2, rfl⟩)
        · exact Or.inl hx
        · exact Or.inr ⟨o2, Or.inr ho2, hk2, rfl⟩
      · rintro (hx | ⟨o2, (rfl | ho2), hk2, rfl⟩)
        · exact Or.inl hx
        · exact absurd hk2 ho
        · exact Or.inr ⟨o2, ho2, hk2, rfl⟩

theorem innerFold_nodup (g : Game) :
    ∀ (os : List String) (s : List OffRec), s.Nodup →
      (os.foldl
        (fun s2 o =>
          if keepOfficial o then
            addUnique s2 (g.date, g.start_time, g.location, o)
          else s2) s).Nodup := by
  intro os
  induction os with
  | nil => intro s h; exact h
  | cons o rest ih =>
    intro s h
    rw [List.foldl_cons]
    split_ifs with ho
    · exact ih _ (addUnique_nodup _ _ h)
    · exact ih _ h

theorem gameFold_mem (g : Game) (s : List OffRec) (x : OffRec) :
    x ∈ gameFold g s
    ↔ x ∈ s ∨ (keepGame g = true
        ∧ ∃ o ∈ g.officials, keepOfficial o = true
          ∧ x = (g.date, g.start_time, g.location, o)) := by
  unfold gameFold
  split_ifs with hg
  · rw [innerFold_mem]
    simp [hg]
  · simp [hg]

theorem gameFold_nodup (g : Game) (s : List OffRec) (h : s.Nodup) :
    (gameFold g s).Nodup := by
  unfold gameFold
  split_ifs with hg
  · exact innerFold_nodup _ _ _ h
  · exact h

theorem collect_mem :
    ∀ (games : List Game) (s : List OffRec) (x : OffRec),
      (x ∈ games.foldl (fun s g => gameFold g s) s)
      ↔ x ∈ s ∨ ∃ g ∈ games, keepGame g = true
          ∧ ∃ o ∈ g.officials, keepOfficial o = true
            ∧ x = (g.date, g.start_time, g.location, o) := by
  intro games
  induction games with
  | nil =>
    intro s x
    constructor
    · exact Or.inl
    · rintro (hx | ⟨g, hg, _⟩)
      · exact hx
      · exact absurd hg (List.not_mem_nil g)
  | cons g rest ih =>
    intro s x
    rw [List.foldl_cons, ih, gameFold_mem]
    simp only [List.mem_cons]
    constructor
    · rintro ((hx | ⟨hg, o, ho, hk, rfl⟩) | ⟨g2, hg2, hkg2, rest2⟩)
      · exact Or.inl hx
      · exact Or.inr ⟨g, Or.inl rfl, hg, o, ho, hk, rfl⟩
      · exact Or.inr ⟨g2, Or.inr hg2, hkg2, rest2⟩
    · rintro (hx | ⟨g2, (rfl | hg2), hkg2, rest2⟩)
      · exact Or.inl (Or.inl hx)
      · exact Or.inl (Or.inr ⟨hkg2, rest2⟩)
      · exact Or.inr ⟨g2, hg2, hkg2, rest2⟩

theorem collect_nodup :
    ∀ (games : List Game) (s : List OffRec), s.Nodup →
      (games.foldl (fun s g => gameFold g s) s).Nodup := by
  intro games
  induction games with
  | nil => intro s h; exact h
  | cons g rest ih =>
    intro s h
    rw [List.foldl_cons]
    exact ih _ (gameFold_nodup _ _ h)

theorem keyLe_trans (a b c : OffRec)
    (hab : keyLe a b = true) (hbc : keyLe b c = true) : keyLe a c = true := by
  simp only [keyLe, Bool.or_eq_true, Bool.and_eq_true, decide_eq_true_eq]
    at hab hbc ⊢
  rcases hab with h1 | ⟨h1, h2⟩ <;> rcases hbc with h3 | ⟨h3, h4⟩
  · exact Or.inl (lt_trans h1 h3)
  · exact Or.inl (h3 ▸ h1)
  · exact Or.inl (h1 ▸ h3)
  · exact Or.inr ⟨h1.trans h3, le_trans h2 h4⟩

theorem keyLe_total (a b : OffRec) : (keyLe a b || keyLe b a) = true := by
  simp only [keyLe, Bool.or_eq_true, Bool.and_eq_true, decide_eq_true_eq]
  rcases lt_trichotomy a.1 b.1 with h | h | h
  · exact Or.inl (Or.inl h)
  · rcases le_total a.2.1 b.2.1 with h2 | h2
    · exact Or.inl (Or.inr ⟨h, h2⟩)
    · exact Or.inr (Or.inr ⟨h.symm, h2⟩)
  · exact Or.inr (Or.inl h)

end OfficialDays

/-- C5: `convert_officials_to_csv` emits one row per distinct
`(date, start_time, location, official)` tuple — games with an empty or
whitespace-only location are dropped entirely, empty officials are dropped
individually, no tuple appears twice — and the rows are sorted ascending by
`(date, start_time)`. -/
theorem C5_official_days_rows (games : List OfficialDays.Game) :
    (OfficialDays.convert_officials_to_csv games).Nodup
    ∧ List.Pairwise (fun a b => OfficialDays.keyLe a b = true)
        (OfficialDays.convert_officials_to_csv games)
    ∧ (∀ x : OfficialDays.OffRec,
        x ∈ OfficialDays.convert_officials_to_csv games
        ↔ ∃ g ∈ games, OfficialDays.keepGame g = true
            ∧ ∃ o ∈ g.officials, OfficialDays.keepOfficial o = true
              ∧ x = (g.date, g.start_time, g.location, o)) := by
  have hperm :
      (OfficialDays.convert_officials_to_csv games).Perm
        (OfficialDays.collectRecords games) :=
    List.mergeSort_perm _ _
  refine ⟨?_, ?_, ?_⟩
  · exact hperm.symm.nodup
      (OfficialDays.collect_nodup games [] List.nodup_nil)
  · exact List.sorted_mergeSort
      (fun a b c => OfficialDays.keyLe_trans a b c)
      OfficialDays.keyLe_total _
  · intro x
    rw [hperm.mem_iff]
    unfold OfficialDays.collectRecords
    rw [OfficialDays.collect_mem games [] x]
    simp

/-- Witness for C5 on one concrete games list: a kept record appears in the
output; it is produced from a game whose blank-location sibling is dropped. -/
theorem C5_witness :
    ("2024-11-08", "19:00", "Maples Pavilion", "Amy Bonner") ∈
      OfficialDays.convert_officials_to_csv
        [⟨"2024-11-09", "12:00", "  ", ["X"]⟩,
         ⟨"2024-11-08", "19:00", "Maples Pavilion", ["Amy Bonner", ""]⟩] :=
  ((C5_official_days_rows _).2.2 _).mpr (by decide)

namespace CoachDB

/-- A nested `positions` entry of a coach record
(`ncaa/coaches/build_coach_db.py`). -/
structure PositionEntry where
  college : Rosters.PyVal
  title : Rosters.PyVal
  start_year : Rosters.PyVal
  end_year : Rosters.PyVal
deriving DecidableEq

/-- A nested `education` entry of a coach record. -/
structure EducationEntry where
  college : Rosters.PyVal
  degree : Rosters.PyVal
  year : Rosters.PyVal
deriving DecidableEq

/-- A nested `playing_career` entry of a coach record. -/
structure PlayingEntry where
  team : Rosters.PyVal
  level : Rosters.PyVal
  start_year : Rosters.PyVal
  end_year : Rosters.PyVal
deriving DecidableEq

/-- One coach record of the input JSON list. -/
structure CoachData where
  team_id : Rosters.PyVal
  team : Rosters.PyVal
  name : String
  title : Rosters.PyVal
  url : Rosters.PyVal
  season : Rosters.PyVal
  positions : List PositionEntry
  education : List EducationEntry
  playing_career : List PlayingEntry
deriving DecidableEq

/-- A row of the `coaches` table (primary key: `name`). -/
structure CoachRow where
  team_id : Rosters.PyVal
  team : Rosters.PyVal
  name : String
  title : Rosters.PyVal
  url : Rosters.PyVal
  season : Rosters.PyVal
deriving DecidableEq

/-- A row of the `positions` table. -/
structure PositionRow where
  coach_name : String
  college : Rosters.PyVal
  title : Rosters.PyVal
  start_year : Rosters.PyVal
  end_year : Rosters.PyVal
deriving DecidableEq

/-- A row of the `education` table. -/
structure EducationRow where
  coach_name : String
  college : Rosters.PyVal
  degree : Rosters.PyVal
  year : Rosters.PyVal
deriving DecidableEq

/-- A row of the `playing` table (the code inserts playing-career entries into
`db["playing"]`, not a table literally named `playing_career`). -/
structure PlayingRow where
  coach_name : String
  team : Rosters.PyVal
  level : Rosters.PyVal
  start_year : Rosters.PyVal
  end_year : Rosters.PyVal
deriving DecidableEq

/-- A foreign-key declaration made by `table.add_foreign_key`. -/
structure ForeignKey where
  table : String
  column : String
  other_table : String
  other_column : String
deriving DecidableEq

/-- The SQLite database state touched by `insert_coaching_data`. -/
structure Db where
  coaches : List CoachRow
  positions : List PositionRow
  education : List EducationRow
  playing : List PlayingRow
  fks : List ForeignKey
deriving DecidableEq

/-- A freshly created database file. -/
def emptyDb : Db := ⟨[], [], [], [], []⟩

/-- `coaches_table.insert(coach, pk="name", replace=True)`: any existing row
with the same primary key is replaced. -/
def insertCoachReplace (rows : List CoachRow) (c : CoachRow) : List CoachRow :=
  rows.filter (fun r => !(r.name == c.name)) ++ [c]

/-- The body of the `for coach_data in json_data` loop: insert the coach row
(replace on key conflict), then `insert_all` the nested positions, education
and playing-career entries, each stamped with `coach_name = coach["name"]`.
(The `if coach_data.get(...)` guards skip `insert_all` for an empty nested
list, which appends nothing either way.) -/
def insertCoach (db : Db) (cd : CoachData) : Db :=
  { db with
    coaches := insertCoachReplace db.coaches
      ⟨cd.team_id, cd.team, cd.name, cd.title, cd.url, cd.season⟩,
    positions := db.positions ++ cd.positions.map
      (fun p => ⟨cd.name, p.college, p.title, p.start_year, p.end_year⟩),
    education := db.education ++ cd.education.map
      (fun e => ⟨cd.name, e.college, e.degree, e.year⟩),
    playing := db.playing ++ cd.playing_career.map
      (fun p => ⟨cd.name, p.team, p.level, p.start_year, p.end_year⟩) }

/-- The three `add_foreign_key("coach_name", "coaches", "name")` declarations
issued after the loop. -/
def declaredFks : List ForeignKey :=
  [⟨"positions", "coach_name", "coaches", "name"⟩,
   ⟨"education", "coach_name", "coaches", "name"⟩,
   ⟨"playing", "coach_name", "coaches", "name"⟩]

/-- `insert_coaching_data`: fold the per-coach inserts over the input list,
then declare the foreign keys. -/
def insert_coaching_data (json_data : List CoachData) (db0 : Db) : Db :=
  let db1 := json_data.foldl insertCoach db0
  { db1 with fks := db1.fks ++ declaredFks }

/-- Replacing preserves the presence of every coach name and adds the new one. -/
theorem insertCoachReplace_name_mem (rows : List CoachRow) (c : CoachRow)
    (n : String) (h : ∃ r ∈ rows, r.name = n) :
    ∃ r ∈ insertCoachReplace rows c, r.name = n := by
  obtain ⟨r, hr, hname⟩ := h
  by_cases he : r.name = c.name
  · exact ⟨c, List.mem_append_right _ (List.mem_singleton_self c), he ▸ hname⟩
  · refine ⟨r, List.mem_append_left _ ?_, hname⟩
    rw [List.mem_filter]
    exact ⟨hr, by simp [he]⟩

/-- The inserted coach itself is present after the replace-insert. -/
theorem insertCoachReplace_self (rows : List CoachRow) (c : CoachRow) :
    c ∈ insertCoachReplace rows c :=
  List.mem_append_right _ (List.mem_singleton_self c)

/-- Referential integrity of the three child tables with respect to the
`coaches` table. -/
def childOk (db : Db) : Prop :=
  (∀ row ∈ db.positions, ∃ c ∈ db.coaches, c.name = row.coach_name)
  ∧ (∀ row ∈ db.education, ∃ c ∈ db.coaches, c.name = row.coach_name)
  ∧ (∀ row ∈ db.playing, ∃ c ∈ db.coaches, c.name = row.coach_name)

/-- One loop iteration preserves referential integrity: old child rows keep a
parent (names survive the replace-insert) and new child rows point at the
just-inserted coach. -/
theorem insertCoach_childOk (db : Db) (cd : CoachData) (h : childOk db) :
    childOk (insertCoach db cd) := by
  obtain ⟨hp, he, hpl⟩ := h
  have hnew : ∃ c ∈ (insertCoach db cd).coaches, c.name = cd.name :=
    ⟨_, insertCoachReplace_self _ _, rfl⟩
  refine ⟨?_, ?_, ?_⟩ <;> intro row hrow <;>
    rcases List.mem_append.mp hrow with hold | hmapped
  · exact insertCoachReplace_name_mem _ _ _ (hp row hold)
  · obtain ⟨p, _, rfl⟩ := List.mem_map.mp hmapped
    exact hnew
  · exact insertCoachReplace_name_mem _ _ _ (he row hold)
  · obtain ⟨e, _, rfl⟩ := List.mem_map.mp hmapped
    exact hnew
  · exact insertCoachReplace_name_mem _ _ _ (hpl row hold)
  · obtain ⟨p, _, rfl⟩ := List.mem_map.mp hmapped
    exact hnew

/-- The loop preserves referential integrity. -/
theorem foldl_childOk :
    ∀ (data : List CoachData) (db : Db), childOk db →
      childOk (data.foldl insertCoach db) := by
  intro data
  induction data with
  | nil => intro db h; exact h
  | cons cd rest ih =>
    intro db h
    rw [List.foldl_cons]
    exact ih _ (insertCoach_childOk db cd h)

/-- The loop never touches the foreign-key declarations. -/
theorem foldl_fks :
    ∀ (data : List CoachData) (db : Db),
      (data.foldl insertCoach db).fks = db.fks := by
  intro data
  induction data with
  | nil => intro db; rfl
  | cons cd rest ih =>
    intro db
    rw [List.foldl_cons, ih]
    rfl

end CoachDB

/-- C2: after `insert_coaching_data` runs on a fresh database, every row of the
`positions`, `education` and `playing` child tables carries a `coach_name`
matching some row of `coaches`, and a foreign key `coach_name -> coaches.name`
is declared on each child table. -/
theorem C2_coach_db_referential_integrity (json_data : List CoachDB.CoachData) :
    (∀ row ∈ (CoachDB.insert_coaching_data json_data CoachDB.emptyDb).positions,
      ∃ c ∈ (CoachDB.insert_coaching_data json_data CoachDB.emptyDb).coaches,
        c.name = row.coach_name)
    ∧ (∀ row ∈ (CoachDB.insert_coaching_data json_data CoachDB.emptyDb).education,
        ∃ c ∈ (CoachDB.insert_coaching_data json_data CoachDB.emptyDb).coaches,
          c.name = row.coach_name)
    ∧ (∀ row ∈ (CoachDB.insert_coaching_data json_data CoachDB.emptyDb).playing,
        ∃ c ∈ (CoachDB.insert_coaching_data json_data CoachDB.emptyDb).coaches,
          c.name = row.coach_name)
    ∧ (CoachDB.insert_coaching_data json_data CoachDB.emptyDb).fks =
        CoachDB.declaredFks := by
  have hok : CoachDB.childOk (json_data.foldl CoachDB.insertCoach CoachDB.emptyDb) :=
    CoachDB.foldl_childOk json_data CoachDB.emptyDb
      ⟨fun row hrow => absurd hrow (List.not_mem_nil row),
       fun row hrow => absurd hrow (List.not_mem_nil row),
       fun row hrow => absurd hrow (List.not_mem_nil row)⟩
  obtain ⟨hp, he, hpl⟩ := hok
  refine ⟨hp, he, hpl, ?_⟩
  show (json_data.foldl CoachDB.insertCoach CoachDB.emptyDb).fks ++
      CoachDB.declaredFks = CoachDB.declaredFks
  rw [CoachDB.foldl_fks]
  rfl

/-- Witness for C2 on a one-coach input with one entry in each child table. -/
theorem C2_witness :
    ∃ c ∈ (CoachDB.insert_coaching_data
        [⟨.int 457, .str "North Carolina", "Courtney Banghart",
          .str "Head Coach", .str "https://example.org", .str "2024-25",
          [⟨.str "Princeton", .str "Head Coach", .int 2007, .int 2019⟩],
          [⟨.str "Dartmouth", .str "BA", .int 2000⟩],
          [⟨.str "Dartmouth", .str "College", .int 1996, .int 2000⟩]⟩]
        CoachDB.emptyDb).coaches,
      c.name = "Courtney Banghart" :=
  (C2_coach_db_referential_integrity _).1
    ⟨"Courtney Banghart", .str "Princeton", .str "Head Coach",
      .int 2007, .int 2019⟩ (by decide)

namespace Convert

/-- An input CSV row of `ncaa/officials/convert.py`, as `csv.DictReader`
yields it: every field a string. -/
structure Row where
  ncaa_id : String
  game_id : String
  date : String
  home : String
  home_fouls : String
  home_technicals : String
  visitor : String
  visitor_fouls : String
  visitor_technicals : String
  officials : String
deriving DecidableEq

/-- The numeric value of a decimal digit. -/
def digitVal (c : Char) : Option Nat :=
  if c.isDigit then some (c.toNat - 48) else Option.none

/-- Parse a non-empty all-digit character list as a natural number. -/
def parseDigits (cs : List Char) : Option Nat :=
  if cs.isEmpty then Option.none
  else
    cs.foldl
      (fun acc c =>
        match acc, digitVal c with
        | some n, some d => some (n * 10 + d)
        | _, _ => Option.none)
      (some 0)

/-- Python `int(s)` on a decimal string: optional surrounding whitespace, an
optional sign, then digits; `none` models the `ValueError` it raises
otherwise. -/
def pyIntParse (s : String) : Option Int :=
  match (Wbb.pyStrip s).data with
  | [] => Option.none
  | c :: rest =>
    if c = '-' then (parseDigits rest).map fun n => -(n : Int)
    else if c = '+' then (parseDigits rest).map fun n => (n : Int)
    else (parseDigits (c :: rest)).map fun n => (n : Int)

/-- `if row[field]: row[field] = int(row[field])`: empty strings stay strings,
anything else must parse as an integer. -/
def convNum (s : String) : Option Rosters.PyVal :=
  if s = "" then some (.str s) else (pyIntParse s).map .int

/-- A row after the numeric-conversion loop: the six count fields are now
integers (or the untouched empty string). -/
structure ConvRow where
  ncaa_id : Rosters.PyVal
  game_id : Rosters.PyVal
  date : String
  home : String
  home_fouls : Rosters.PyVal
  home_technicals : Rosters.PyVal
  visitor : String
  visitor_fouls : Rosters.PyVal
  visitor_technicals : Rosters.PyVal
  officials : String
deriving DecidableEq

/-- The numeric-conversion loop over
`['ncaa_id', 'game_id', 'home_fouls', 'home_technicals', 'visitor_fouls',
'visitor_technicals']`. -/
def convertNums (r : Row) : Option ConvRow := do
  let ncaa ← convNum r.ncaa_id
  let gid ← convNum r.game_id
  let hf ← convNum r.home_fouls
  let ht ← convNum r.home_technicals
  let vf ← convNum r.visitor_fouls
  let vt ← convNum r.visitor_technicals
  pure ⟨ncaa, gid, r.date, r.home, hf, ht, r.visitor, vf, vt, r.officials⟩

/-- Python `str.split(sep)` for a one-character separator. -/
def splitChar (sep : Char) : List Char → List (List Char)
  | [] => [[]]
  | x :: rest =>
    match splitChar sep rest with
    | [] => [[x]]
    | h :: t => if x = sep then [] :: h :: t else (x :: h) :: t

/-- `s.split(sep)` as strings. -/
def pySplit (s : String) (sep : Char) : List String :=
  (splitChar sep s.data).map fun l => ⟨l⟩

/-- Python `str.zfill(2)`: pad on the left with zeros to width 2. -/
def zfill2 (s : String) : String :=
  if 2 ≤ s.length then s else ⟨List.replicate (2 - s.length) '0' ++ s.data⟩

/-- The date rewrite: empty dates pass through; otherwise
`month, day, year = date.split('/')` (a `ValueError`, modelled as `none`,
unless exactly three parts) and reassembly as `year-month-day` with zero
padding. -/
def formatDate (date : String) : Option String :=
  if date = "" then some date
  else
    match pySplit date '/' with
    | [m, d, y] => some (y ++ "-" ++ zfill2 m ++ "-" ++ zfill2 d)
    | _ => Option.none

/-- Python `str.replace('  ', ' ')`: collapse each non-overlapping double
space, scanning left to right. -/
def collapseDoubleSpace : List Char → List Char
  | ' ' :: ' ' :: rest => ' ' :: collapseDoubleSpace rest
  | c :: rest => c :: collapseDoubleSpace rest
  | [] => []

/-- Python `str.title()` (ASCII): a letter is upper-cased after a non-letter
and lower-cased after a letter. -/
def titleGo : Bool → List Char → List Char
  | _, [] => []
  | prevAlpha, c :: rest =>
    if c.isAlpha then
      (if prevAlpha then c.toLower else c.toUpper) :: titleGo true rest
    else c :: titleGo false rest

/-- `str.title()` on a string. -/
def pyTitle (s : String) : String := ⟨titleGo false s.data⟩

/-- `[name.strip().replace('  ', ' ').title() for name in officials.split(',')]`. -/
def transformOfficials (officials_string : String) : List String :=
  (pySplit officials_string ',').map fun name =>
    pyTitle ⟨collapseDoubleSpace (Wbb.pyStrip name).data⟩

/-- The per-row work done before the dedup decision: numeric conversion and
the (fallible) date formatting. -/
def convertRow (r : Row) : Option (ConvRow × String) := do
  let c ← convertNums r
  let fd ← formatDate c.date
  pure (c, fd)

/-- The dedup tuple built by the code: original date and officials strings,
but foul/technical counts after the `int()` conversion. -/
abbrev DedupKey :=
  String × String × Rosters.PyVal × Rosters.PyVal × String ×
    Rosters.PyVal × Rosters.PyVal × String

/-- `dedup_tuple` of a converted row. -/
def dedupKey (c : ConvRow) : DedupKey :=
  (c.date, c.home, c.home_fouls, c.home_technicals, c.visitor,
    c.visitor_fouls, c.visitor_technicals, c.officials)

/-- The dedup tuple the claim describes: the original untransformed string
fields of the CSV row. -/
structure SpecKey where
  date : String
  home : String
  home_fouls : String
  home_technicals : String
  visitor : String
  visitor_fouls : String
  visitor_technicals : String
  officials : String
deriving DecidableEq

/-- The claim's dedup tuple of a raw CSV row. -/
def specDedupKey (r : Row) : SpecKey :=
  ⟨r.date, r.home, r.home_fouls, r.home_technicals, r.visitor,
    r.visitor_fouls, r.visitor_technicals, r.officials⟩

/-- An output JSON object: date rewritten, officials split into an array. -/
structure OutRow where
  ncaa_id : Rosters.PyVal
  game_id : Rosters.PyVal
  date : String
  home : String
  home_fouls : Rosters.PyVal
  home_technicals : Rosters.PyVal
  visitor : String
  visitor_fouls : Rosters.PyVal
  visitor_technicals : Rosters.PyVal
  officials : List String
deriving DecidableEq

/-- The post-dedup assignments `row['date'] = formatted_date` and
`row['officials'] = officials_array`. -/
def finalize (c : ConvRow) (fd : String) : OutRow :=
  ⟨c.ncaa_id, c.game_id, fd, c.home, c.home_fouls, c.home_technicals,
    c.visitor, c.visitor_fouls, c.visitor_technicals,
    transformOfficials c.officials⟩

/-- The main reader loop: convert the row (an uncaught `ValueError` aborts the
whole run), then either count a duplicate or record the seen tuple and emit
the transformed row. -/
def go : List Row → List DedupKey → List OutRow → Nat →
    Option (List OutRow × Nat)
  | [], _, data, dups => some (data, dups)
  | r :: rest, seen, data, dups =>
    match convertRow r with
    | Option.none => Option.none
    | some (c, fd) =>
      if dedupKey c ∈ seen then go rest seen data (dups + 1)
      else go rest (seen ++ [dedupKey c]) (data ++ [finalize c fd]) dups

/-- `convert_csv_to_json`: the emitted JSON list and the duplicates count. -/
def convert_csv_to_json (rows : List Row) : Option (List OutRow × Nat) :=
  go rows [] [] 0

/-- All rows converted up front (equal to the interleaved loop: both fail
exactly when some row fails). -/
def convertAll : List Row → Option (List (ConvRow × String))
  | [] => some []
  | r :: rest =>
    match convertRow r, convertAll rest with
    | some p, some l => some (p :: l)
    | _, _ => Option.none

/-- First occurrence of each distinct dedup tuple, in input order. -/
def firstOccur : List (ConvRow × String) → List DedupKey →
    List (ConvRow × String)
  | [], _ => []
  | (c, fd) :: rest, seen =>
    if dedupKey c ∈ seen then firstOccur rest seen
    else (c, fd) :: firstOccur rest (seen ++ [dedupKey c])

/-- Number of rows skipped as duplicates. -/
def dupCount : List (ConvRow × String) → List DedupKey → Nat
  | [], _ => 0
  | (c, _) :: rest, seen =>
    if dedupKey c ∈ seen then dupCount rest seen + 1
    else dupCount rest (seen ++ [dedupKey c])

end Convert

namespace Convert

/-- The interleaved reader loop aborts exactly when up-front conversion of
some row fails. -/
theorem go_eq_none :
    ∀ (rows : List Row) (seen : List DedupKey) (data : List OutRow)
      (dups : Nat),
      convertAll rows = Option.none → go rows seen data dups = Option.none := by
  intro rows
  induction rows with
  | nil =>
    intro seen data dups h
    simp [convertAll] at h
  | cons r rest ih =>
    intro seen data dups h
    rcases hr : convertRow r with _ | p
    · simp [go, hr]
    · obtain ⟨c, fd⟩ := p
      rcases hl : convertAll rest with _ | l
      · simp only [go, hr]
        by_cases hk : dedupKey c ∈ seen
        · rw [if_pos hk]
          exact ih _ _ _ hl
        · rw [if_neg hk]
          exact ih _ _ _ hl
      · simp [convertAll, hr, hl] at h

/-- When every row converts, the interleaved reader loop equals the pure
first-occurrence dedup of the converted rows. -/
theorem go_eq_some :
    ∀ (rows : List Row) (seen : List DedupKey) (data : List OutRow)
      (dups : Nat) (l : List (ConvRow × String)),
      convertAll rows = some l →
      go rows seen data dups =
        some (data ++ (firstOccur l seen).map (fun p => finalize p.1 p.2),
          dups + dupCount l seen) := by
  intro rows
  induction rows with
  | nil =>
    intro seen data dups l h
    simp only [convertAll, Option.some.injEq] at h
    subst h
    simp [go, firstOccur, dupCount]
  | cons r rest ih =>
    intro seen data dups l h
    rcases hr : convertRow r with _ | p
    · simp [convertAll, hr] at h
    · obtain ⟨c, fd⟩ := p
      rcases hl : convertAll rest with _ | l2
      · simp [convertAll, hr, hl] at h
      · simp only [convertAll, hr, hl, Option.some.injEq] at h
        subst h
        simp only [go, hr]
        by_cases hk : dedupKey c ∈ seen
        · rw [if_pos hk, ih seen data (dups + 1) l2 hl]
          simp only [firstOccur, dupCount, if_pos hk]
          have harith : dups + 1 + dupCount l2 seen =
              dups + (dupCount l2 seen + 1) := by omega
          rw [harith]
        · rw [if_neg hk,
            ih (seen ++ [dedupKey c]) (data ++ [finalize c fd]) dups l2 hl]
          simp only [firstOccur, dupCount, if_neg hk, List.map_cons,
            List.append_assoc, List.singleton_append]

/-- Kept rows plus skipped duplicates account for every converted row. -/
theorem firstOccur_length_add :
    ∀ (l : List (ConvRow × String)) (seen : List DedupKey),
      (firstOccur l seen).length + dupCount l seen = l.length := by
  intro l
  induction l with
  | nil => intro seen; rfl
  | cons p rest ih =>
    obtain ⟨c, fd⟩ := p
    intro seen
    have h1 := ih seen
    have h2 := ih (seen ++ [dedupKey c])
    by_cases hk : dedupKey c ∈ seen <;>
      simp [firstOccur, dupCount, hk] <;> omega

/-- Conversion preserves the row count. -/
theorem convertAll_length :
    ∀ (rows : List Row) (l : List (ConvRow × String)),
      convertAll rows = some l → l.length = rows.length := by
  intro rows
  induction rows with
  | nil =>
    intro l h
    simp only [convertAll, Option.some.injEq] at h
    rw [← h]
    rfl
  | cons r rest ih =>
    intro l h
    rcases hr : convertRow r with _ | p <;>
      rcases hl : convertAll rest with _ | l2 <;>
      simp only [convertAll, hr, hl] at h
    · exact Option.noConfusion h
    · exact Option.noConfusion h
    · exact Option.noConfusion h
    · have h2 := Option.some.inj h
      rw [← h2]
      simp [ih l2 hl]

end Convert

/-- C4 counterexample: two CSV rows that agree on every field except that one
records `home_fouls` as `"7"` and the other as `"07"` have distinct tuples of
original fields, yet `convert_csv_to_json` — which deduplicates after the
`int()` conversion has collapsed both to `7` — keeps only one of them and
counts one duplicate, contradicting deduplication by the original
(pre-transformation) fields. -/
theorem C4_counterexample :
    (Convert.convert_csv_to_json
        [⟨"1", "10", "1/5/2023", "Duke", "7", "0", "UNC", "12", "1", "A, B"⟩,
         ⟨"1", "10", "1/5/2023", "Duke", "07", "0", "UNC", "12", "1", "A, B"⟩]).map
        (fun p => (p.1.length, p.2)) = some (1, 1)
    ∧ Convert.specDedupKey
        ⟨"1", "10", "1/5/2023", "Duke", "7", "0", "UNC", "12", "1", "A, B"⟩
      ≠ Convert.specDedupKey
        ⟨"1", "10", "1/5/2023", "Duke", "07", "0", "UNC", "12", "1", "A, B"⟩ := by
  constructor
  · decide
  · decide

/-- C4 amended: `convert_csv_to_json` deduplicates by the tuple of fields
after the numeric `int()` conversion of the count columns but before the date
and officials rewrites; the output is the first occurrence of each distinct
such tuple, in input order, transformed only after the dedup decision, and the
duplicates count is the number of dropped rows (input length minus output
length). -/
theorem C4_convert_dedup_after_int_conversion
    (rows : List Convert.Row) (out : List Convert.OutRow) (dups : Nat)
    (h : Convert.convert_csv_to_json rows = some (out, dups)) :
    ∃ l, Convert.convertAll rows = some l
      ∧ out = (Convert.firstOccur l []).map (fun p => Convert.finalize p.1 p.2)
      ∧ dups = Convert.dupCount l []
      ∧ out.length + dups = rows.length := by
  unfold Convert.convert_csv_to_json at h
  rcases hl : Convert.convertAll rows with _ | l
  · rw [Convert.go_eq_none rows [] [] 0 hl] at h
    exact Option.noConfusion h
  · rw [Convert.go_eq_some rows [] [] 0 l hl] at h
    have h3 : (([] : List Convert.OutRow) ++
        (Convert.firstOccur l []).map (fun p => Convert.finalize p.1 p.2),
        0 + Convert.dupCount l []) = (out, dups) := Option.some.inj h
    have ho : out =
        (Convert.firstOccur l []).map (fun p => Convert.finalize p.1 p.2) := by
      have hfst := congrArg Prod.fst h3
      simpa using hfst.symm
    have hd : dups = Convert.dupCount l [] := by
      have hsnd := congrArg Prod.snd h3
      simpa using hsnd.symm
    refine ⟨l, rfl, ho, hd, ?_⟩
    rw [ho, hd, List.length_map, Convert.firstOccur_length_add]
    exact Convert.convertAll_length rows l hl

/-- Witness for C4 amended, on a concrete one-row input. -/
theorem C4_witness :
    ∃ l, Convert.convertAll
        [⟨"1", "10", "1/5/2023", "Duke", "7", "0", "UNC", "12", "1", "A, B"⟩] =
          some l
      ∧ [(⟨.int 1, .int 10, "2023-01-05", "Duke", .int 7, .int 0, "UNC",
            .int 12, .int 1, ["A", "B"]⟩ : Convert.OutRow)] =
          (Convert.firstOccur l []).map (fun p => Convert.finalize p.1 p.2)
      ∧ 0 = Convert.dupCount l []
      ∧ ([(⟨.int 1, .int 10, "2023-01-05", "Duke", .int 7, .int 0, "UNC",
            .int 12, .int 1, ["A", "B"]⟩ : Convert.OutRow)]).length + 0 =
          ([(⟨"1", "10", "1/5/2023", "Duke", "7", "0", "UNC", "12", "1",
            "A, B"⟩ : Convert.Row)]).length :=
  C4_convert_dedup_after_int_conversion
    [⟨"1", "10", "1/5/2023", "Duke", "7", "0", "UNC", "12", "1", "A, B"⟩]
    [⟨.int 1, .int 10, "2023-01-05", "Duke", .int 7, .int 0, "UNC",
      .int 12, .int 1, ["A", "B"]⟩]
    0 (by decide)
